import Mathlib

/- Verification development for the My Personal Bank application.

   The application keeps a ledger of two balances (checking, savings), an
   optional savings goal and a capped list of transactions.  All monetary
   arithmetic in the source is done with JavaScript numbers and rounded to
   cents via Math.round(n * 100) / 100; we embed amounts as rationals and
   Math.round as floor(x + 1/2), which is its behaviour on finite values.
   UI state (modals, inputs) is irrelevant to the ledger logic and is
   passed explicitly as the raw input strings of each confirm handler. -/

/- ## Rounding -/

/-- Embedding of JavaScript Math.round on finite values: floor(x + 1/2). -/
def jround (q : ℚ) : ℤ :=
  Rat.floor (q + 1/2)

/-- Embedding of Math.round(q * 100) / 100, the two-decimal rounding used by
every balance mutation in the source. -/
def round2 (q : ℚ) : ℚ :=
  (jround (q * 100) : ℚ) / 100

/-- Rounding to the nearest integer with ties going away from zero.  This is
the description used by the specification (round-half-away-from-zero); on
positive inputs it agrees with Math.round. -/
def roundHalfAway (q : ℚ) : ℤ :=
  if 0 ≤ q then Rat.floor (q + 1/2) else Rat.ceil (q - 1/2)

/- ## Amount parsing (parseAmount, source lines 171-176) -/

/-- Numeric value of a digit string. -/
def digitsToNat (ds : List Char) : ℕ :=
  ds.foldl (fun a c => 10 * a + (c.toNat - 48)) 0

/-- Ten to an integer power, as a rational. -/
def pow10 (k : ℤ) : ℚ :=
  if 0 ≤ k then ((10 : ℚ) ^ k.toNat) else 1 / (10 : ℚ) ^ (-k).toNat

/-- Signed digit run after the exponent character of a decimal literal. -/
def expSignedDigits (cs : List Char) : Option ℤ :=
  match cs with
  | '+' :: ds =>
      let d := ds.takeWhile Char.isDigit
      if d.isEmpty then none else some (digitsToNat d : ℤ)
  | '-' :: ds =>
      let d := ds.takeWhile Char.isDigit
      if d.isEmpty then none else some (-(digitsToNat d : ℤ))
  | ds =>
      let d := ds.takeWhile Char.isDigit
      if d.isEmpty then none else some (digitsToNat d : ℤ)

/-- Exponent clause of a JavaScript decimal literal: the character e or E,
an optional sign and a nonempty digit run.  Returns none when the input does
not start with a well-formed exponent clause (parseFloat then ignores it). -/
def parseExpPart (cs : List Char) : Option ℤ :=
  match cs with
  | 'e' :: rest => expSignedDigits rest
  | 'E' :: rest => expSignedDigits rest
  | _ => none

/-- Applies a trailing exponent clause to an already parsed mantissa. -/
def applyExpPart (mant : ℚ) (cs : List Char) : ℚ :=
  match parseExpPart cs with
  | some k => mant * pow10 k
  | none => mant

/-- Unsigned decimal literal at the start of the input: digits, an optional
decimal point with more digits, and an optional exponent clause; at least one
digit must be present.  Trailing garbage is ignored, as in parseFloat. -/
def parseUnsigned (cs : List Char) : Option ℚ :=
  let intDs := cs.takeWhile Char.isDigit
  let rest := cs.drop intDs.length
  match rest with
  | '.' :: rest2 =>
      let fracDs := rest2.takeWhile Char.isDigit
      if intDs.isEmpty && fracDs.isEmpty then none
      else some (applyExpPart
        ((digitsToNat intDs : ℚ) + (digitsToNat fracDs : ℚ) / (10 : ℚ) ^ fracDs.length)
        (rest2.drop fracDs.length))
  | _ =>
      if intDs.isEmpty then none
      else some (applyExpPart (digitsToNat intDs : ℚ) rest)

/-- Result of Number.parseFloat: NaN, a signed infinity (the literal
Infinity), or a finite rational value. -/
inductive JSNumber
  | nan
  | infinite (neg : Bool)
  | finite (q : ℚ)
deriving DecidableEq

/-- Magnitude part of parseFloat: the literal Infinity or an unsigned
decimal literal. -/
def parseMagnitude (cs : List Char) : JSNumber :=
  match cs with
  | 'I' :: 'n' :: 'f' :: 'i' :: 'n' :: 'i' :: 't' :: 'y' :: _ => JSNumber.infinite false
  | _ =>
      match parseUnsigned cs with
      | some q => JSNumber.finite q
      | none => JSNumber.nan

/-- Optional leading sign of parseFloat. -/
def parseSigned (cs : List Char) : JSNumber :=
  match cs with
  | '-' :: rest =>
      match parseMagnitude rest with
      | JSNumber.finite q => JSNumber.finite (-q)
      | JSNumber.infinite _ => JSNumber.infinite true
      | JSNumber.nan => JSNumber.nan
  | '+' :: rest => parseMagnitude rest
  | _ => parseMagnitude cs

/-- Embedding of Number.parseFloat: leading whitespace is skipped, then the
longest numeric-literal prefix is converted (NaN when there is none). -/
def parseFloatJS (cs : List Char) : JSNumber :=
  parseSigned (cs.dropWhile Char.isWhitespace)

/-- Embedding of String.prototype.trim. -/
def jsTrimList (cs : List Char) : List Char :=
  ((cs.dropWhile Char.isWhitespace).reverse.dropWhile Char.isWhitespace).reverse

def jsTrim (s : String) : String :=
  String.mk (jsTrimList s.data)

/-- The cleaned characters parseAmount works on: every comma removed by the
replace call, then trimmed. -/
def cleanedInput (raw : String) : List Char :=
  jsTrimList (raw.data.filter (fun c => c ≠ ','))

/-- Embedding of parseAmount (source lines 171-176): strip commas, trim,
parseFloat; null unless the result is finite and strictly positive; round
the accepted value to two decimals. -/
def parseAmount (raw : String) : Option ℚ :=
  match parseFloatJS (cleanedInput raw) with
  | JSNumber.finite n => if n ≤ 0 then none else some (round2 n)
  | _ => none

/- ## Ledger data model -/

inductive Scope
  | checking
  | savings
  | both
deriving DecidableEq

structure Transaction where
  id : String
  date : String
  description : String
  amount : ℚ
  category : String
  scope : Option Scope
deriving DecidableEq

structure BankingData where
  checkingBalance : ℚ
  savingsBalance : ℚ
  savingsGoal : Option ℚ
  transactions : List Transaction
deriving DecidableEq

def emptyData : BankingData :=
  { checkingBalance := 0, savingsBalance := 0, savingsGoal := none, transactions := [] }

/-- The id and date the environment supplies to a new transaction
(makeId and todayISO in the source). -/
structure TxMeta where
  id : String
  date : String
deriving DecidableEq

def mkTx (m : TxMeta) (description : String) (amount : ℚ) (category : String)
    (scope : Option Scope) : Transaction :=
  { id := m.id, date := m.date, description := description, amount := amount,
    category := category, scope := scope }

/-- Embedding of addTransaction (source lines 178-192): the new transaction
goes to the front of the list, which is then truncated to 25 entries. -/
def addTransaction (t : Transaction) (d : BankingData) : BankingData :=
  { d with transactions := (t :: d.transactions).take 25 }

/- ## Balance operations (the onConfirm* handlers) -/

inductive TransferDirection
  | checkingToSavings
  | savingsToChecking
deriving DecidableEq

deriving instance DecidableEq for Except

/-- Embedding of onConfirmTransfer (source lines 199-232).  An error value
is the modal error message; an ok value is the ledger after the mutation. -/
def onConfirmTransfer (dir : TransferDirection) (amountInput : String) (m : TxMeta)
    (d : BankingData) : Except String BankingData :=
  match parseAmount amountInput with
  | none => Except.error "Enter a valid amount."
  | some amount =>
    match dir with
    | TransferDirection.checkingToSavings =>
        if amount > d.checkingBalance then Except.error "Not enough funds in Checking."
        else
          Except.ok (addTransaction (mkTx m "Transfer to Savings" (-amount) "Transfer" (some Scope.both))
            { d with checkingBalance := round2 (d.checkingBalance - amount),
                     savingsBalance := round2 (d.savingsBalance + amount) })
    | TransferDirection.savingsToChecking =>
        if amount > d.savingsBalance then Except.error "Not enough funds in Savings."
        else
          Except.ok (addTransaction (mkTx m "Transfer to Checking" amount "Transfer" (some Scope.both))
            { d with savingsBalance := round2 (d.savingsBalance - amount),
                     checkingBalance := round2 (d.checkingBalance + amount) })

/-- Embedding of onConfirmPayBills (source lines 234-257). -/
def onConfirmPayBills (amountInput descriptionInput : String) (m : TxMeta)
    (d : BankingData) : Except String BankingData :=
  let desc := jsTrim descriptionInput
  if desc = "" then Except.error "Enter a bill name/description."
  else
    match parseAmount amountInput with
    | none => Except.error "Enter a valid amount."
    | some amount =>
        if amount > d.checkingBalance then Except.error "Not enough funds in Checking."
        else
          Except.ok (addTransaction
            (mkTx m ("Bill Payment: " ++ desc) (-amount) "Bills" (some Scope.checking))
            { d with checkingBalance := round2 (d.checkingBalance - amount) })

/-- Embedding of onConfirmAddMoney (source lines 259-273). -/
def onConfirmAddMoney (amountInput : String) (m : TxMeta)
    (d : BankingData) : Except String BankingData :=
  match parseAmount amountInput with
  | none => Except.error "Enter a valid amount."
  | some amount =>
      Except.ok (addTransaction (mkTx m "Add Money to Savings" amount "Income" (some Scope.savings))
        { d with savingsBalance := round2 (d.savingsBalance + amount) })

/-- Embedding of onConfirmSetGoal (source lines 275-285). -/
def onConfirmSetGoal (amountInput : String) (m : TxMeta)
    (d : BankingData) : Except String BankingData :=
  match parseAmount amountInput with
  | none => Except.error "Enter a valid goal amount."
  | some amount =>
      Except.ok (addTransaction (mkTx m "Set savings goal" 0 "Goal" (some Scope.savings))
        { d with savingsGoal := some amount })

/-- Embedding of onConfirmEditChecking (source lines 287-303): the recorded
delta is taken against the pre-mutation checking balance, then the balance is
set to the parsed amount. -/
def onConfirmEditChecking (amountInput : String) (m : TxMeta)
    (d : BankingData) : Except String BankingData :=
  match parseAmount amountInput with
  | none => Except.error "Enter a valid balance."
  | some amount =>
      Except.ok { (addTransaction
        (mkTx m "Balance correction" (amount - d.checkingBalance) "Adjustment" (some Scope.checking)) d)
        with checkingBalance := amount }

/-- Embedding of onConfirmEditSavings (source lines 305-321). -/
def onConfirmEditSavings (amountInput : String) (m : TxMeta)
    (d : BankingData) : Except String BankingData :=
  match parseAmount amountInput with
  | none => Except.error "Enter a valid balance."
  | some amount =>
      Except.ok { (addTransaction
        (mkTx m "Balance correction" (amount - d.savingsBalance) "Adjustment" (some Scope.savings)) d)
        with savingsBalance := amount }

/-- One user-initiated ledger operation together with its raw inputs. -/
inductive Op
  | transfer (dir : TransferDirection) (amountInput : String) (m : TxMeta)
  | payBills (amountInput descriptionInput : String) (m : TxMeta)
  | addMoney (amountInput : String) (m : TxMeta)
  | setGoal (amountInput : String) (m : TxMeta)
  | editChecking (amountInput : String) (m : TxMeta)
  | editSavings (amountInput : String) (m : TxMeta)

def runOp : Op → BankingData → Except String BankingData
  | Op.transfer dir amountInput m, d => onConfirmTransfer dir amountInput m d
  | Op.payBills amountInput descriptionInput m, d => onConfirmPayBills amountInput descriptionInput m d
  | Op.addMoney amountInput m, d => onConfirmAddMoney amountInput m d
  | Op.setGoal amountInput m, d => onConfirmSetGoal amountInput m d
  | Op.editChecking amountInput m, d => onConfirmEditChecking amountInput m d
  | Op.editSavings amountInput m, d => onConfirmEditSavings amountInput m d

/-- A rejected operation leaves the ledger untouched; an accepted one
replaces it. -/
def applyOp (op : Op) (d : BankingData) : BankingData :=
  match runOp op d with
  | Except.ok d2 => d2
  | Except.error _ => d

/- ## Persisted ledger loading (data load effect, source lines 89-119) -/

/-- JSON values, the possible results of JSON.parse. -/
inductive JValue
  | jnull
  | jbool (b : Bool)
  | jnum (q : ℚ)
  | jstr (s : String)
  | jarr (elems : List JValue)
  | jobj (fields : List (String × JValue))

/-- Field access parsed.key on a JSON value (undefined elsewhere). -/
def jGet : JValue → String → Option JValue
  | JValue.jobj fields, key => (fields.find? (fun f => f.1 = key)).map Prod.snd
  | _, _ => none

def isNumJ : Option JValue → Bool
  | some (JValue.jnum _) => true
  | _ => false

def isArrJ : Option JValue → Bool
  | some (JValue.jarr _) => true
  | _ => false

def numOf : Option JValue → ℚ
  | some (JValue.jnum q) => q
  | _ => 0

def arrOf : Option JValue → List JValue
  | some (JValue.jarr xs) => xs
  | _ => []

/-- The shape check the load effect performs: checkingBalance and
savingsBalance are numbers and transactions is an array. -/
def shapeOk (v : JValue) : Bool :=
  isNumJ (jGet v "checkingBalance") && isNumJ (jGet v "savingsBalance") &&
    isArrJ (jGet v "transactions")

/-- The ledger fields the load effect passes to setData when the shape check
succeeds.  The transactions array is taken verbatim, without validating its
elements, so it stays a list of JSON values here. -/
structure LoadedData where
  checkingBalance : ℚ
  savingsBalance : ℚ
  savingsGoal : Option ℚ
  transactions : List JValue

/-- Embedding of the data load effect.  The stored record is given as parsed
by JSON.parse: none when the storage key is absent, some none when the raw
text makes JSON.parse throw, some (some v) when it parses to v.  The result
is the data passed to setData (none when the ledger stays empty) and the
storage contents after the effect ran. -/
def loadData (stored : Option (Option JValue)) :
    Option LoadedData × Option (Option JValue) :=
  match stored with
  | none => (none, none)
  | some none => (none, none)
  | some (some v) =>
      if shapeOk v then
        (some { checkingBalance := numOf (jGet v "checkingBalance"),
                savingsBalance := numOf (jGet v "savingsBalance"),
                savingsGoal :=
                  match jGet v "savingsGoal" with
                  | some (JValue.jnum q) => some q
                  | _ => none,
                transactions := arrOf (jGet v "transactions") }, some (some v))
      else (none, some (some v))

/- ## Session gate (onLogin, lines 341-363, and session load, lines 58-67) -/

structure SessionUser where
  name : String
deriving DecidableEq

/-- Embedding of the session load effect: none means the session key is
absent, some none an unparsable record (removed), some (some u) a parsed user
record; the user is restored only when the name field is truthy. -/
def loadSession (stored : Option (Option SessionUser)) :
    Option SessionUser × Option (Option SessionUser) :=
  match stored with
  | none => (none, none)
  | some none => (none, none)
  | some (some u) => (if u.name = "" then none else some u, some (some u))

/-- Embedding of onLogin: the resulting user, the displayed error, and the
session storage after the submission. -/
def onLogin (username password : String) (stored : Option (Option SessionUser)) :
    Option SessionUser × Option String × Option (Option SessionUser) :=
  let u := jsTrim username
  if u = "" ∨ password = "" then
    (none, some "Please enter username and password.", stored)
  else if u ≠ "Admin" ∨ password ≠ "admin123" then
    (none, some "Invalid login. Use Admin / admin123.", stored)
  else
    (some { name := "Admin" }, none, some (some { name := "Admin" }))

/- ## Offline asset cache (public/sw.js, fetch handler lines 22-45) -/

structure SWRequest where
  url : String
  method : String
  mode : String
deriving DecidableEq

/-- Result of the fetch event handler: passthrough when respondWith is never
called (non-GET requests), otherwise the response the promise resolves to
(none embeds resolving to undefined). -/
inductive FetchOutcome
  | passthrough
  | respond (r : Option String)
deriving DecidableEq

/-- caches.match keyed by request URL. -/
def cacheMatch (c : List (String × String)) (url : String) : Option String :=
  (c.find? (fun e => e.1 = url)).map Prod.snd

/-- Embedding of the fetch event handler: cache-first, then network with a
cache store, then the cached root document for failed navigations.  The
network argument is the result of fetch (none when it rejects).  Returns the
outcome and the cache contents afterwards. -/
def handleFetch (c : List (String × String)) (net : Option String) (req : SWRequest) :
    FetchOutcome × List (String × String) :=
  if req.method ≠ "GET" then (FetchOutcome.passthrough, c)
  else
    match cacheMatch c req.url with
    | some r => (FetchOutcome.respond (some r), c)
    | none =>
        match net with
        | some resp => (FetchOutcome.respond (some resp), (req.url, resp) :: c)
        | none =>
            if req.mode = "navigate" then (FetchOutcome.respond (cacheMatch c "/"), c)
            else (FetchOutcome.respond none, c)

/- ## Invariants and concrete inputs used by the theorems -/

/-- Both balances are rounded to exactly two decimal places: multiplying by
100 yields an integer. -/
def TwoDec (d : BankingData) : Prop :=
  (100 * d.checkingBalance).den = 1 ∧ (100 * d.savingsBalance).den = 1

instance (d : BankingData) : Decidable (TwoDec d) := by
  unfold TwoDec; infer_instance

/-- Both balances are nonnegative. -/
def NonNegBal (d : BankingData) : Prop :=
  0 ≤ d.checkingBalance ∧ 0 ≤ d.savingsBalance

instance (d : BankingData) : Decidable (NonNegBal d) := by
  unfold NonNegBal; infer_instance

/-- Twenty-six pairwise distinct transactions, used as a concrete run of the
transaction recorder. -/
def txsW : List Transaction :=
  (List.range 26).map (fun i =>
    { id := toString i, date := "", description := "", amount := 0,
      category := "", scope := none })

/-- A persisted record that parses as JSON but fails the shape check:
checkingBalance is a string, not a number. -/
def badRecord : JValue :=
  JValue.jobj [("checkingBalance", JValue.jstr "x")]

/- ## Helper lemmas -/

set_option maxRecDepth 8000

lemma jround_nonneg {q : ℚ} (h : 0 ≤ q) : 0 ≤ jround q := by
  unfold jround
  refine Rat.le_floor.mpr ?_
  push_cast
  linarith

lemma round2_nonneg {q : ℚ} (h : 0 ≤ q) : 0 ≤ round2 q := by
  unfold round2
  refine div_nonneg ?_ (by norm_num)
  exact_mod_cast jround_nonneg (mul_nonneg h (by norm_num))

lemma jround_eq_roundHalfAway {q : ℚ} (h : 0 ≤ q) : jround q = roundHalfAway q := by
  unfold jround roundHalfAway
  rw [if_pos h]

lemma hundred_mul_round2_den (q : ℚ) : (100 * round2 q).den = 1 := by
  unfold round2
  rw [(by field_simp : (100 : ℚ) * ((jround (q * 100) : ℚ) / 100) = (jround (q * 100) : ℚ))]
  exact Rat.den_intCast _

lemma parseAmount_eq_round2 {s : String} {q : ℚ} (h : parseAmount s = some q) :
    ∃ n : ℚ, parseFloatJS (cleanedInput s) = JSNumber.finite n ∧ 0 < n ∧ q = round2 n := by
  unfold parseAmount at h
  cases hp : parseFloatJS (cleanedInput s) with
  | finite n =>
      rw [hp] at h
      have h2 : (if n ≤ 0 then none else some (round2 n) : Option ℚ) = some q := h
      by_cases hn : n ≤ 0
      · rw [if_pos hn] at h2
        exact absurd h2 (by simp)
      · rw [if_neg hn] at h2
        exact ⟨n, rfl, lt_of_not_le hn, (Option.some.inj h2).symm⟩
  | nan =>
      rw [hp] at h
      have h2 : (none : Option ℚ) = some q := h
      exact absurd h2 (by simp)
  | infinite b =>
      rw [hp] at h
      have h2 : (none : Option ℚ) = some q := h
      exact absurd h2 (by simp)

lemma parseAmount_nonneg {s : String} {q : ℚ} (h : parseAmount s = some q) : 0 ≤ q := by
  obtain ⟨n, _, hn, hq⟩ := parseAmount_eq_round2 h
  rw [hq]
  exact round2_nonneg (le_of_lt hn)

lemma parseAmount_den {s : String} {q : ℚ} (h : parseAmount s = some q) :
    (100 * q).den = 1 := by
  obtain ⟨n, _, _, hq⟩ := parseAmount_eq_round2 h
  rw [hq]
  exact hundred_mul_round2_den n


lemma applyOp_nonneg (op : Op) {d : BankingData} (h : NonNegBal d) :
    NonNegBal (applyOp op d) := by
  obtain ⟨hc, hs⟩ := h
  cases op with
  | transfer dir input m =>
      cases hp : parseAmount input with
      | none =>
          simp only [applyOp, runOp, onConfirmTransfer, hp]
          exact ⟨hc, hs⟩
      | some X =>
          have hX : 0 ≤ X := parseAmount_nonneg hp
          cases dir with
          | checkingToSavings =>
              by_cases hgt : X > d.checkingBalance
              · simp only [applyOp, runOp, onConfirmTransfer, hp, if_pos hgt]
                exact ⟨hc, hs⟩
              · simp only [applyOp, runOp, onConfirmTransfer, hp, if_neg hgt, addTransaction]
                exact ⟨round2_nonneg (by linarith [not_lt.mp hgt]), round2_nonneg (by linarith)⟩
          | savingsToChecking =>
              by_cases hgt : X > d.savingsBalance
              · simp only [applyOp, runOp, onConfirmTransfer, hp, if_pos hgt]
                exact ⟨hc, hs⟩
              · simp only [applyOp, runOp, onConfirmTransfer, hp, if_neg hgt, addTransaction]
                exact ⟨round2_nonneg (by linarith), round2_nonneg (by linarith [not_lt.mp hgt])⟩
  | payBills input descIn m =>
      by_cases hd : jsTrim descIn = ""
      · simp only [applyOp, runOp, onConfirmPayBills, hd, if_pos rfl]
        exact ⟨hc, hs⟩
      · cases hp : parseAmount input with
        | none =>
            simp only [applyOp, runOp, onConfirmPayBills, if_neg hd, hp]
            exact ⟨hc, hs⟩
        | some X =>
            have hX : 0 ≤ X := parseAmount_nonneg hp
            by_cases hgt : X > d.checkingBalance
            · simp only [applyOp, runOp, onConfirmPayBills, if_neg hd, hp, if_pos hgt]
              exact ⟨hc, hs⟩
            · simp only [applyOp, runOp, onConfirmPayBills, if_neg hd, hp, if_neg hgt,
                addTransaction]
              exact ⟨round2_nonneg (by linarith [not_lt.mp hgt]), hs⟩
  | addMoney input m =>
      cases hp : parseAmount input with
      | none =>
          simp only [applyOp, runOp, onConfirmAddMoney, hp]
          exact ⟨hc, hs⟩
      | some X =>
          have hX : 0 ≤ X := parseAmount_nonneg hp
          simp only [applyOp, runOp, onConfirmAddMoney, hp, addTransaction]
          exact ⟨hc, round2_nonneg (by linarith)⟩
  | setGoal input m =>
      cases hp : parseAmount input with
      | none =>
          simp only [applyOp, runOp, onConfirmSetGoal, hp]
          exact ⟨hc, hs⟩
      | some X =>
          simp only [applyOp, runOp, onConfirmSetGoal, hp, addTransaction]
          exact ⟨hc, hs⟩
  | editChecking input m =>
      cases hp : parseAmount input with
      | none =>
          simp only [applyOp, runOp, onConfirmEditChecking, hp]
          exact ⟨hc, hs⟩
      | some X =>
          have hX : 0 ≤ X := parseAmount_nonneg hp
          simp only [applyOp, runOp, onConfirmEditChecking, hp, addTransaction]
          exact ⟨hX, hs⟩
  | editSavings input m =>
      cases hp : parseAmount input with
      | none =>
          simp only [applyOp, runOp, onConfirmEditSavings, hp]
          exact ⟨hc, hs⟩
      | some X =>
          have hX : 0 ≤ X := parseAmount_nonneg hp
          simp only [applyOp, runOp, onConfirmEditSavings, hp, addTransaction]
          exact ⟨hc, hX⟩

lemma applyOp_twoDec (op : Op) {d : BankingData} (h : TwoDec d) :
    TwoDec (applyOp op d) := by
  obtain ⟨hc, hs⟩ := h
  cases op with
  | transfer dir input m =>
      cases hp : parseAmount input with
      | none =>
          simp only [applyOp, runOp, onConfirmTransfer, hp]
          exact ⟨hc, hs⟩
      | some X =>
          cases dir with
          | checkingToSavings =>
              by_cases hgt : X > d.checkingBalance
              · simp only [applyOp, runOp, onConfirmTransfer, hp, if_pos hgt]
                exact ⟨hc, hs⟩
              · simp only [applyOp, runOp, onConfirmTransfer, hp, if_neg hgt, addTransaction]
                exact ⟨hundred_mul_round2_den _, hundred_mul_round2_den _⟩
          | savingsToChecking =>
              by_cases hgt : X > d.savingsBalance
              · simp only [applyOp, runOp, onConfirmTransfer, hp, if_pos hgt]
                exact ⟨hc, hs⟩
              · simp only [applyOp, runOp, onConfirmTransfer, hp, if_neg hgt, addTransaction]
                exact ⟨hundred_mul_round2_den _, hundred_mul_round2_den _⟩
  | payBills input descIn m =>
      by_cases hd : jsTrim descIn = ""
      · simp only [applyOp, runOp, onConfirmPayBills, hd, if_pos rfl]
        exact ⟨hc, hs⟩
      · cases hp : parseAmount input with
        | none =>
            simp only [applyOp, runOp, onConfirmPayBills, if_neg hd, hp]
            exact ⟨hc, hs⟩
        | some X =>
            by_cases hgt : X > d.checkingBalance
            · simp only [applyOp, runOp, onConfirmPayBills, if_neg hd, hp, if_pos hgt]
              exact ⟨hc, hs⟩
            · simp only [applyOp, runOp, onConfirmPayBills, if_neg hd, hp, if_neg hgt,
                addTransaction]
              exact ⟨hundred_mul_round2_den _, hs⟩
  | addMoney input m =>
      cases hp : parseAmount input with
      | none =>
          simp only [applyOp, runOp, onConfirmAddMoney, hp]
          exact ⟨hc, hs⟩
      | some X =>
          simp only [applyOp, runOp, onConfirmAddMoney, hp, addTransaction]
          exact ⟨hc, hundred_mul_round2_den _⟩
  | setGoal input m =>
      cases hp : parseAmount input with
      | none =>
          simp only [applyOp, runOp, onConfirmSetGoal, hp]
          exact ⟨hc, hs⟩
      | some X =>
          simp only [applyOp, runOp, onConfirmSetGoal, hp, addTransaction]
          exact ⟨hc, hs⟩
  | editChecking input m =>
      cases hp : parseAmount input with
      | none =>
          simp only [applyOp, runOp, onConfirmEditChecking, hp]
          exact ⟨hc, hs⟩
      | some X =>
          simp only [applyOp, runOp, onConfirmEditChecking, hp, addTransaction]
          exact ⟨parseAmount_den hp, hs⟩
  | editSavings input m =>
      cases hp : parseAmount input with
      | none =>
          simp only [applyOp, runOp, onConfirmEditSavings, hp]
          exact ⟨hc, hs⟩
      | some X =>
          simp only [applyOp, runOp, onConfirmEditSavings, hp, addTransaction]
          exact ⟨hc, parseAmount_den hp⟩

lemma foldl_applyOp_nonneg (ops : List Op) (d : BankingData) (h : NonNegBal d) :
    NonNegBal (ops.foldl (fun acc op => applyOp op acc) d) := by
  induction ops generalizing d with
  | nil => exact h
  | cons op rest ih => exact ih (applyOp op d) (applyOp_nonneg op h)

lemma take_append_take {α : Type} (A B : List α) (n : ℕ) :
    (A ++ B.take n).take n = (A ++ B).take n := by
  rw [List.take_append_eq_append_take, List.take_append_eq_append_take, List.take_take,
    Nat.min_eq_left (Nat.sub_le n A.length)]

lemma foldl_addTransaction (ts : List Transaction) (d : BankingData)
    (h : d.transactions.length ≤ 25) :
    (ts.foldl (fun acc t => addTransaction t acc) d).transactions =
      (ts.reverse ++ d.transactions).take 25 := by
  induction ts generalizing d with
  | nil =>
      simpa using (List.take_of_length_le h).symm
  | cons t rest ih =>
      have hlen : (addTransaction t d).transactions.length ≤ 25 := by
        simp only [addTransaction, List.length_take]
        omega
      rw [List.foldl_cons, ih (addTransaction t d) hlen]
      show (rest.reverse ++ ((t :: d.transactions).take 25)).take 25 = _
      rw [take_append_take, List.reverse_cons, List.append_assoc]
      rfl

/- ## Claim theorems -/

/-- C1: for every ledger with checking C and savings S and every parsed
amount X, when X is at most the debited balance the transfer mutates the two
balances to round2 of C minus X and S plus X (checking to savings), or
symmetrically for savings to checking, and prepends the matching Transfer
transaction (amount minus X, resp. plus X, scope both) at the front of the
history. -/
theorem transfer_moves_amount_and_records (d : BankingData) (m : TxMeta) (input : String)
    (X : ℚ) (hp : parseAmount input = some X) :
    (X ≤ d.checkingBalance →
      onConfirmTransfer TransferDirection.checkingToSavings input m d =
        Except.ok { checkingBalance := round2 (d.checkingBalance - X),
                    savingsBalance := round2 (d.savingsBalance + X),
                    savingsGoal := d.savingsGoal,
                    transactions :=
                      (mkTx m "Transfer to Savings" (-X) "Transfer" (some Scope.both) ::
                        d.transactions).take 25 }) ∧
    (X ≤ d.savingsBalance →
      onConfirmTransfer TransferDirection.savingsToChecking input m d =
        Except.ok { checkingBalance := round2 (d.checkingBalance + X),
                    savingsBalance := round2 (d.savingsBalance - X),
                    savingsGoal := d.savingsGoal,
                    transactions :=
                      (mkTx m "Transfer to Checking" X "Transfer" (some Scope.both) ::
                        d.transactions).take 25 }) := by
  constructor
  · intro hle
    simp [onConfirmTransfer, hp, not_lt.mpr hle, addTransaction]
  · intro hle
    simp [onConfirmTransfer, hp, not_lt.mpr hle, addTransaction]

theorem transfer_moves_amount_and_records_witness :
    parseAmount "100" = some 100 ∧ (100 : ℚ) ≤ 500 ∧
    onConfirmTransfer TransferDirection.checkingToSavings "100"
        { id := "id1", date := "2026-01-01" }
        { checkingBalance := 500, savingsBalance := 1000, savingsGoal := none,
          transactions := [] } =
      Except.ok { checkingBalance := round2 (500 - 100), savingsBalance := round2 (1000 + 100),
                  savingsGoal := none,
                  transactions :=
                    (mkTx { id := "id1", date := "2026-01-01" } "Transfer to Savings" (-100)
                        "Transfer" (some Scope.both) :: ([] : List Transaction)).take 25 } :=
  ⟨by with_unfolding_all decide, by norm_num,
    (transfer_moves_amount_and_records
        { checkingBalance := 500, savingsBalance := 1000, savingsGoal := none,
          transactions := [] }
        { id := "id1", date := "2026-01-01" } "100" 100 (by with_unfolding_all decide)).1
      (by norm_num)⟩

/-- C2: when the parsed amount exceeds the balance being debited, each debit
operation (either transfer direction, pay bill) reports an error message and
leaves the ledger exactly unchanged. -/
theorem insufficient_funds_is_atomic (d : BankingData) (m : TxMeta) (input descIn : String)
    (X : ℚ) (hp : parseAmount input = some X) :
    (X > d.checkingBalance →
      onConfirmTransfer TransferDirection.checkingToSavings input m d =
        Except.error "Not enough funds in Checking." ∧
      applyOp (Op.transfer TransferDirection.checkingToSavings input m) d = d) ∧
    (X > d.savingsBalance →
      onConfirmTransfer TransferDirection.savingsToChecking input m d =
        Except.error "Not enough funds in Savings." ∧
      applyOp (Op.transfer TransferDirection.savingsToChecking input m) d = d) ∧
    (X > d.checkingBalance →
      (∃ e, onConfirmPayBills input descIn m d = Except.error e) ∧
      applyOp (Op.payBills input descIn m) d = d) := by
  refine ⟨fun hgt => ⟨?_, ?_⟩, fun hgt => ⟨?_, ?_⟩, fun hgt => ⟨?_, ?_⟩⟩
  · simp [onConfirmTransfer, hp, hgt]
  · simp [applyOp, runOp, onConfirmTransfer, hp, hgt]
  · simp [onConfirmTransfer, hp, hgt]
  · simp [applyOp, runOp, onConfirmTransfer, hp, hgt]
  · by_cases hd : jsTrim descIn = ""
    · exact ⟨"Enter a bill name/description.", by simp [onConfirmPayBills, hd]⟩
    · exact ⟨"Not enough funds in Checking.", by simp [onConfirmPayBills, hd, hp, hgt]⟩
  · by_cases hd : jsTrim descIn = ""
    · simp [applyOp, runOp, onConfirmPayBills, hd]
    · simp [applyOp, runOp, onConfirmPayBills, hd, hp, hgt]

theorem insufficient_funds_is_atomic_witness :
    parseAmount "2000" = some 2000 ∧ ((2000 : ℚ) > 500) ∧
    (onConfirmTransfer TransferDirection.checkingToSavings "2000" { id := "i", date := "t" }
        { checkingBalance := 500, savingsBalance := 1000, savingsGoal := none,
          transactions := [] } =
      Except.error "Not enough funds in Checking." ∧
     applyOp (Op.transfer TransferDirection.checkingToSavings "2000" { id := "i", date := "t" })
        { checkingBalance := 500, savingsBalance := 1000, savingsGoal := none,
          transactions := [] } =
      { checkingBalance := 500, savingsBalance := 1000, savingsGoal := none,
        transactions := [] }) :=
  ⟨by with_unfolding_all decide, by norm_num,
    (insufficient_funds_is_atomic
        { checkingBalance := 500, savingsBalance := 1000, savingsGoal := none,
          transactions := [] }
        { id := "i", date := "t" } "2000" "Rent" 2000 (by with_unfolding_all decide)).1
      (by norm_num)⟩

/-- C3: parseAmount strips commas and trims, parses the rest with parseFloat,
returns null exactly when no finite value results or the value is nonpositive,
and otherwise rounds the value to two decimals with ties away from zero; the
input 75.004 parses to exactly 75. -/
theorem parseAmount_rounding_spec (s : String) :
    (parseAmount s = none ↔
      ∀ n : ℚ, parseFloatJS (cleanedInput s) = JSNumber.finite n → n ≤ 0) ∧
    (∀ n : ℚ, parseFloatJS (cleanedInput s) = JSNumber.finite n → 0 < n →
      parseAmount s = some ((roundHalfAway (n * 100) : ℚ) / 100)) ∧
    parseAmount "75.004" = some 75 := by
  refine ⟨⟨?_, ?_⟩, ?_, ?_⟩
  · intro h n hn
    by_contra hpos
    have h2 : parseAmount s = some (round2 n) := by
      unfold parseAmount
      rw [hn]
      show (if n ≤ 0 then none else some (round2 n) : Option ℚ) = some (round2 n)
      exact if_neg hpos
    rw [h] at h2
    exact Option.noConfusion h2
  · intro hall
    unfold parseAmount
    cases hf : parseFloatJS (cleanedInput s) with
    | finite n =>
        show (if n ≤ 0 then none else some (round2 n) : Option ℚ) = none
        exact if_pos (hall n hf)
    | nan => rfl
    | infinite b => rfl
  · intro n hf hpos
    unfold parseAmount
    rw [hf]
    show (if n ≤ 0 then none else some (round2 n) : Option ℚ) = _
    rw [if_neg (not_le.mpr hpos)]
    unfold round2
    rw [jround_eq_roundHalfAway (by linarith)]
  · with_unfolding_all decide

theorem parseAmount_rounding_spec_witness :
    parseFloatJS (cleanedInput "3.456") = JSNumber.finite (3456/1000) ∧
    (0 : ℚ) < 3456/1000 ∧
    parseAmount "3.456" = some ((roundHalfAway ((3456/1000 : ℚ) * 100) : ℚ) / 100) :=
  ⟨by with_unfolding_all decide, by norm_num,
    (parseAmount_rounding_spec "3.456").2.1 (3456/1000) (by with_unfolding_all decide)
      (by norm_num)⟩

/-- C4: the recorder prepends each new transaction and truncates to 25
entries; from an empty history, 26 recorded transactions leave exactly 25
entries, most recent first, and the first recorded transaction is gone. -/
theorem history_capped_at_25 (ts : List Transaction) (d : BankingData)
    (h0 : d.transactions = []) (h26 : ts.length = 26) (hnd : ts.Nodup) :
    (∀ t acc, (addTransaction t acc).transactions = (t :: acc.transactions).take 25) ∧
    (ts.foldl (fun acc t => addTransaction t acc) d).transactions = ts.reverse.take 25 ∧
    (ts.foldl (fun acc t => addTransaction t acc) d).transactions.length = 25 ∧
    ∀ t0, ts.head? = some t0 →
      t0 ∉ (ts.foldl (fun acc t => addTransaction t acc) d).transactions := by
  have h2 : (ts.foldl (fun acc t => addTransaction t acc) d).transactions =
      ts.reverse.take 25 := by
    rw [foldl_addTransaction ts d (by simp [h0]), h0, List.append_nil]
  refine ⟨fun t acc => rfl, h2, ?_, ?_⟩
  · rw [h2]
    simp [List.length_take, h26]
  · intro t0 ht0
    cases ts with
    | nil => exact Option.noConfusion ht0
    | cons a rest =>
        have ha : t0 = a := (Option.some.inj ht0).symm
        subst ha
        have hrest : rest.length = 25 := by
          have := h26
          simp only [List.length_cons] at this
          omega
        have hnotin : t0 ∉ rest := (List.nodup_cons.mp hnd).1
        rw [h2, List.reverse_cons, List.take_append_eq_append_take,
          List.take_of_length_le (by simp [hrest])]
        simp [hrest, List.mem_reverse]
        exact hnotin

theorem history_capped_at_25_witness :
    emptyData.transactions = [] ∧ txsW.length = 26 ∧ txsW.Nodup ∧
    (txsW.foldl (fun acc t => addTransaction t acc) emptyData).transactions.length = 25 :=
  ⟨rfl, by with_unfolding_all decide, by with_unfolding_all decide,
    (history_capped_at_25 txsW emptyData rfl (by with_unfolding_all decide)
      (by with_unfolding_all decide)).2.2.1⟩

/-- C5: every operation, accepted or rejected, preserves the invariant that
both balances are rounded to exactly two decimal places. -/
theorem balances_two_decimal_invariant (op : Op) (d : BankingData) (h : TwoDec d) :
    TwoDec (applyOp op d) :=
  applyOp_twoDec op h

theorem balances_two_decimal_invariant_witness :
    TwoDec emptyData ∧
    TwoDec (applyOp (Op.addMoney "5" { id := "i", date := "t" }) emptyData) :=
  ⟨by with_unfolding_all decide,
    balances_two_decimal_invariant (Op.addMoney "5" { id := "i", date := "t" }) emptyData
      (by with_unfolding_all decide)⟩

/-- C6: from the ledger with checking 500, savings 1000, no goal and no
history, paying the bill Electricity with amount 75 or 75.004 succeeds,
leaves checking at 425 and savings at 1000, and records exactly one Bills
transaction of amount minus 75 scoped to checking. -/
theorem payBills_concrete_example (m : TxMeta) :
    parseAmount "75.004" = some 75 ∧
    onConfirmPayBills "75" "Electricity" m
        { checkingBalance := 500, savingsBalance := 1000, savingsGoal := none,
          transactions := [] } =
      Except.ok { checkingBalance := 425, savingsBalance := 1000, savingsGoal := none,
                  transactions :=
                    [mkTx m "Bill Payment: Electricity" (-75) "Bills" (some Scope.checking)] } ∧
    onConfirmPayBills "75.004" "Electricity" m
        { checkingBalance := 500, savingsBalance := 1000, savingsGoal := none,
          transactions := [] } =
      Except.ok { checkingBalance := 425, savingsBalance := 1000, savingsGoal := none,
                  transactions :=
                    [mkTx m "Bill Payment: Electricity" (-75) "Bills" (some Scope.checking)] } := by
  refine ⟨by with_unfolding_all decide, ?_, ?_⟩
  · with_unfolding_all rfl
  · with_unfolding_all rfl

/-- C7 counterexample: a persisted record that parses as JSON but fails the
shape check makes the ledger fall back to empty, yet the record stays in
storage, so the claim that the corrupt record is removed fails here. -/
theorem load_invalid_shape_not_removed :
    shapeOk badRecord = false ∧
    (loadData (some (some badRecord))).1 = none ∧
    (loadData (some (some badRecord))).2 = some (some badRecord) ∧
    (loadData (some (some badRecord))).2 ≠ none := by
  refine ⟨by with_unfolding_all decide, rfl, rfl, ?_⟩
  intro hcon
  exact Option.noConfusion
    ((rfl : (loadData (some (some badRecord))).2 = some (some badRecord)).symm.trans hcon)

/-- C7 amended: the ledger falls back to empty whenever the record is absent,
unparsable or of the wrong shape, but the record is removed from storage only
when JSON parsing throws; a wrong-shape record is ignored and left behind. -/
theorem load_fallback_and_removal (stored : Option (Option JValue)) :
    ((loadData stored).1 = none ↔
      ¬ ∃ v, stored = some (some v) ∧ shapeOk v = true) ∧
    (loadData stored).2 = (match stored with | some none => none | _ => stored) := by
  match stored with
  | none => exact ⟨by simp [loadData], by simp [loadData]⟩
  | some none => exact ⟨by simp [loadData], by simp [loadData]⟩
  | some (some v) =>
      by_cases hs : shapeOk v
      · exact ⟨by simp [loadData, hs], by simp [loadData, hs]⟩
      · exact ⟨by simp [loadData, hs], by simp [loadData, hs]⟩

/-- C8 counterexample: a blank submission and a wrong pair both fail but
with different messages, so failing submissions do not all share one generic
invalid-login message. -/
theorem login_messages_differ :
    (onLogin "" "" none).2.1 = some "Please enter username and password." ∧
    (onLogin "user" "pass" none).2.1 = some "Invalid login. Use Admin / admin123." ∧
    (onLogin "" "" none).2.1 ≠ (onLogin "user" "pass" none).2.1 := by
  refine ⟨?_, ?_, ?_⟩
  · with_unfolding_all rfl
  · with_unfolding_all rfl
  · with_unfolding_all decide

/-- C8 amended: login succeeds exactly when the trimmed username is Admin
and the password is admin123; success persists a session record that the
session load effect restores, and every failure reports an error message
(a prompt to fill both fields when one is blank, otherwise the fixed
invalid-login message) and persists nothing. -/
theorem login_gate_amended (username password : String)
    (stored : Option (Option SessionUser)) :
    ((onLogin username password stored).1 ≠ none ↔
      (jsTrim username = "Admin" ∧ password = "admin123")) ∧
    (jsTrim username = "Admin" → password = "admin123" →
      onLogin username password stored =
        (some { name := "Admin" }, none, some (some { name := "Admin" })) ∧
      (loadSession (some (some { name := "Admin" }))).1 = some { name := "Admin" }) ∧
    (¬(jsTrim username = "Admin" ∧ password = "admin123") →
      (onLogin username password stored).1 = none ∧
      (onLogin username password stored).2.2 = stored ∧
      ∃ e, (onLogin username password stored).2.1 = some e) := by
  by_cases he : jsTrim username = "" ∨ password = ""
  · have hforb : ¬(jsTrim username = "Admin" ∧ password = "admin123") := by
      rintro ⟨h1, h2⟩
      rcases he with h3 | h3
      · rw [h1] at h3
        exact absurd h3 (by decide)
      · rw [h2] at h3
        exact absurd h3 (by decide)
    refine ⟨?_, fun h1 h2 => absurd ⟨h1, h2⟩ hforb, fun _ => ?_⟩
    · simp only [onLogin, if_pos he]
      simp [hforb]
    · refine ⟨?_, ?_, "Please enter username and password.", ?_⟩ <;>
        simp [onLogin, if_pos he]
  · by_cases hm : jsTrim username ≠ "Admin" ∨ password ≠ "admin123"
    · have hforb : ¬(jsTrim username = "Admin" ∧ password = "admin123") := by
        rintro ⟨h1, h2⟩
        rcases hm with h3 | h3
        · exact h3 h1
        · exact h3 h2
      refine ⟨?_, fun h1 h2 => absurd ⟨h1, h2⟩ hforb, fun _ => ?_⟩
      · simp only [onLogin, if_neg he, if_pos hm]
        simp [hforb]
      · refine ⟨?_, ?_, "Invalid login. Use Admin / admin123.", ?_⟩ <;>
          simp [onLogin, if_neg he, if_pos hm]
    · obtain ⟨hn1, hn2⟩ := not_or.mp hm
      have h1 : jsTrim username = "Admin" := not_not.mp hn1
      have h2 : password = "admin123" := not_not.mp hn2
      refine ⟨?_, fun _ _ => ⟨?_, by with_unfolding_all rfl⟩, fun hcon => absurd ⟨h1, h2⟩ hcon⟩
      · simp only [onLogin, if_neg he, if_neg hm]
        simp [h1, h2]
      · simp only [onLogin, if_neg he, if_neg hm]

theorem login_gate_amended_witness :
    jsTrim "Admin" = "Admin" ∧
    (onLogin "Admin" "admin123" none =
      (some { name := "Admin" }, none, some (some { name := "Admin" })) ∧
     (loadSession (some (some { name := "Admin" }))).1 = some { name := "Admin" }) :=
  ⟨by with_unfolding_all decide,
    (login_gate_amended "Admin" "admin123" none).2.1 (by with_unfolding_all decide) rfl⟩

/-- C9: starting from the empty ledger, after any finite sequence of
operations (accepted ones mutate the state, rejected ones leave it) both
balances are nonnegative. -/
theorem reachable_balances_nonneg (ops : List Op) :
    0 ≤ (ops.foldl (fun acc op => applyOp op acc) emptyData).checkingBalance ∧
    0 ≤ (ops.foldl (fun acc op => applyOp op acc) emptyData).savingsBalance :=
  foldl_applyOp_nonneg ops emptyData ⟨le_refl 0, le_refl 0⟩

/-- C10: for every GET request the fetch handler is cache-first; on a cache
miss it returns the network response and stores a copy in the cache; when the
network fails it answers navigations with the cached root document and all
other requests with no response. -/
theorem fetch_cache_first_spec (c : List (String × String)) (net : Option String)
    (req : SWRequest) (hget : req.method = "GET") :
    (∀ r, cacheMatch c req.url = some r →
      handleFetch c net req = (FetchOutcome.respond (some r), c)) ∧
    (cacheMatch c req.url = none → ∀ resp, net = some resp →
      handleFetch c net req = (FetchOutcome.respond (some resp), (req.url, resp) :: c) ∧
      cacheMatch ((req.url, resp) :: c) req.url = some resp) ∧
    (cacheMatch c req.url = none → net = none → req.mode = "navigate" →
      handleFetch c net req = (FetchOutcome.respond (cacheMatch c "/"), c)) ∧
    (cacheMatch c req.url = none → net = none → req.mode ≠ "navigate" →
      handleFetch c net req = (FetchOutcome.respond none, c)) := by
  have hng : ¬(req.method ≠ "GET") := by simp [hget]
  refine ⟨?_, ?_, ?_, ?_⟩
  · intro r hr
    simp [handleFetch, hng, hr]
  · intro hmiss resp hnet
    subst hnet
    refine ⟨by simp [handleFetch, hng, hmiss], ?_⟩
    simp [cacheMatch]
  · intro hmiss hnet hnav
    subst hnet
    simp [handleFetch, hng, hmiss, hnav]
  · intro hmiss hnet hnav
    subst hnet
    simp [handleFetch, hng, hmiss, hnav]

theorem fetch_cache_first_spec_witness :
    cacheMatch [("/", "root")] "/x" = none ∧
    handleFetch [("/", "root")] none { url := "/x", method := "GET", mode := "navigate" } =
      (FetchOutcome.respond (cacheMatch [("/", "root")] "/"), [("/", "root")]) :=
  ⟨by with_unfolding_all decide,
    (fetch_cache_first_spec [("/", "root")] none
        { url := "/x", method := "GET", mode := "navigate" } rfl).2.2.1
      (by with_unfolding_all decide) rfl rfl⟩
